import Mathlib

/-
Verification of the OF crawl engine (src/shared/schema.ts: the zod request
schema, the express route glue, and the Python crawl script embedded in
crawlWithPython; src/server/storage.ts: persistence glue).

The embedding follows the source: the Python fallback_crawl loop becomes a
step function plus a well-founded loop over an explicit crawl state; the
external libraries the script calls (requests, urllib, crawl4ai) are
parameters of the model (a fetch oracle and URL functions); Python/JS string
operations (str.split, str.strip, String.prototype.trim, split(/\s+/)) are
modelled over List Char.
-/

namespace OF

/-- Whitespace as Python str.split/str.strip and the JS regex \s treat the
common ASCII cases: space, tab, newline, carriage return, vertical tab,
form feed. -/
def isWS (c : Char) : Bool :=
  c == ' ' || c == '\t' || c == '\n' || c == '\r' || c == '\x0b' || c == '\x0c'

/-- Number of whitespace-delimited tokens of a character list, carrying
whether we are currently inside a token.  `countTokens false l` is
`len(l.split())` in Python: the count of maximal non-whitespace runs. -/
def countTokens : Bool → List Char → Nat
  | _, [] => 0
  | inTok, c :: cs =>
    if isWS c then countTokens false cs
    else (if inTok then 0 else 1) + countTokens true cs

/-- Leading-whitespace removal (the first half of str.strip / trim). -/
def trimLeadingWS (l : List Char) : List Char := l.dropWhile isWS

/-- Python str.strip / JS String.prototype.trim on a character list: drop
leading and trailing whitespace. -/
def pyStripL (l : List Char) : List Char :=
  ((trimLeadingWS l).reverse.dropWhile isWS).reverse

/-- str.strip / trim on a String. -/
def pyStrip (s : String) : String := String.mk (pyStripL s.data)

/-- The fields of JS String.prototype.split(/\s+/): each maximal whitespace
run is one separator, so a run at the start or end contributes an empty
field. -/
def jsFields : List Char → List (List Char)
  | [] => [[]]
  | [c] => if isWS c then [[], []] else [[c]]
  | c :: c2 :: cs =>
    if isWS c then
      if isWS c2 then jsFields (c2 :: cs) else [] :: jsFields (c2 :: cs)
    else
      match jsFields (c2 :: cs) with
      | f :: fs => (c :: f) :: fs
      | [] => [[c]]

/-- Number of maximal whitespace runs, counting each run at its last
character (which aligns with the recursion of jsFields). -/
def wsRunsEnd : List Char → Nat
  | [] => 0
  | [c] => if isWS c then 1 else 0
  | c :: c2 :: cs =>
    (if isWS c then (if isWS c2 then 0 else 1) else 0) + wsRunsEnd (c2 :: cs)

/-- Whether the last character of the list is whitespace (false for []). -/
def endsInWS : List Char → Bool
  | [] => false
  | [c] => isWS c
  | _ :: c :: cs => endsInWS (c :: cs)

/-- The wordCount the route stores (registerRoutes, src/shared/schema.ts
line 83 of the concatenated sources):
`result.markdown.trim() ? result.markdown.trim().split(/\s+/).length : 0`. -/
def jsWordCount (s : String) : Nat :=
  if pyStripL s.data = [] then 0 else (jsFields (pyStripL s.data)).length

/-- The characterCount the route stores: `result.markdown.length`. -/
def storedCharacterCount (s : String) : Nat := s.length

/-- The spec's wordCount: the number of whitespace-delimited tokens of the
combined markdown (0 when it is empty or all whitespace). -/
def specWordCount (s : String) : Nat := countTokens false s.data

theorem countTokens_cons (b : Bool) (c : Char) (cs : List Char) :
    countTokens b (c :: cs) =
      if isWS c then countTokens false cs else (if b then 0 else 1) + countTokens true cs := rfl

theorem countTokens_false_cons (c : Char) (cs : List Char) :
    countTokens false (c :: cs) = countTokens true (c :: cs) + (if isWS c then 0 else 1) := by
  rw [countTokens_cons, countTokens_cons]
  by_cases h : isWS c
  · simp [h]
  · simp [h, Nat.add_comm]

theorem countTokens_trimLeading (l : List Char) :
    countTokens false (trimLeadingWS l) = countTokens false l := by
  induction l with
  | nil => rfl
  | cons c cs ih =>
    by_cases h : isWS c
    · simpa [trimLeadingWS, List.dropWhile_cons, h, countTokens] using ih
    · simp [trimLeadingWS, List.dropWhile_cons, h]

theorem countTokens_append_ws (b : Bool) (l : List Char) (c : Char) (h : isWS c = true) :
    countTokens b (l ++ [c]) = countTokens b l := by
  induction l generalizing b with
  | nil => simp [countTokens, h]
  | cons x xs ih =>
    by_cases hx : isWS x
    · simp [countTokens, hx, ih]
    · simp [countTokens, hx, ih]

theorem countTokens_dropWhile_reverse (b : Bool) (m : List Char) :
    countTokens b (m.dropWhile isWS).reverse = countTokens b m.reverse := by
  induction m with
  | nil => rfl
  | cons c cs ih =>
    by_cases h : isWS c
    · rw [List.dropWhile_cons, if_pos h, List.reverse_cons, countTokens_append_ws b cs.reverse c h]
      exact ih
    · rw [List.dropWhile_cons, if_neg h]

theorem countTokens_pyStripL (l : List Char) :
    countTokens false (pyStripL l) = countTokens false l := by
  unfold pyStripL
  rw [countTokens_dropWhile_reverse false (trimLeadingWS l).reverse, List.reverse_reverse,
      countTokens_trimLeading]

theorem jsFields_length (l : List Char) : (jsFields l).length = wsRunsEnd l + 1 := by
  induction l with
  | nil => rfl
  | cons c cs ih =>
    cases cs with
    | nil =>
      by_cases h : isWS c <;> simp [jsFields, wsRunsEnd, h]
    | cons c2 cs2 =>
      by_cases h : isWS c
      · by_cases h2 : isWS c2
        · rw [show jsFields (c :: c2 :: cs2) = jsFields (c2 :: cs2) by
              simp [jsFields, h, h2]]
          rw [show wsRunsEnd (c :: c2 :: cs2) = wsRunsEnd (c2 :: cs2) by
              simp [wsRunsEnd, h, h2]]
          exact ih
        · rw [show jsFields (c :: c2 :: cs2) = [] :: jsFields (c2 :: cs2) by
              simp [jsFields, h, h2]]
          rw [show wsRunsEnd (c :: c2 :: cs2) = 1 + wsRunsEnd (c2 :: cs2) by
              simp [wsRunsEnd, h, h2]]
          simp only [List.length_cons]
          omega
      · cases hf : jsFields (c2 :: cs2) with
        | nil => rw [hf] at ih; simp at ih
        | cons f fs =>
          rw [show jsFields (c :: c2 :: cs2) = (c :: f) :: fs by
              simp [jsFields, h, hf]]
          rw [show wsRunsEnd (c :: c2 :: cs2) = wsRunsEnd (c2 :: cs2) by
              simp [wsRunsEnd, h]]
          rw [hf] at ih
          simp only [List.length_cons] at ih ⊢
          omega

theorem countTokens_true_wsRuns (l : List Char) :
    countTokens true l + (if endsInWS l then 1 else 0) = wsRunsEnd l := by
  induction l with
  | nil => rfl
  | cons c cs ih =>
    cases cs with
    | nil => by_cases h : isWS c <;> simp [countTokens, endsInWS, wsRunsEnd, h]
    | cons c2 cs2 =>
      have hends : endsInWS (c :: c2 :: cs2) = endsInWS (c2 :: cs2) := rfl
      by_cases h : isWS c
      · have h1 : countTokens true (c :: c2 :: cs2) = countTokens false (c2 :: cs2) := by
          simp [countTokens_cons, h]
        have h2 := countTokens_false_cons c2 cs2
        have h3 : wsRunsEnd (c :: c2 :: cs2) = (if isWS c2 then 0 else 1) + wsRunsEnd (c2 :: cs2) := by
          simp [wsRunsEnd, h]
        rw [hends]
        omega
      · have h1 : countTokens true (c :: c2 :: cs2) = countTokens true (c2 :: cs2) := by
          simp [countTokens_cons, h]
        have h3 : wsRunsEnd (c :: c2 :: cs2) = wsRunsEnd (c2 :: cs2) := by
          simp [wsRunsEnd, h]
        rw [hends]
        omega

theorem dropWhile_head_not_ws :
    ∀ (l : List Char) (c : Char) (cs : List Char),
      l.dropWhile isWS = c :: cs → isWS c = false := by
  intro l
  induction l with
  | nil => intro c cs h; simp at h
  | cons x xs ih =>
    intro c cs h
    by_cases hx : isWS x
    · rw [List.dropWhile_cons, if_pos hx] at h
      exact ih c cs h
    · rw [List.dropWhile_cons, if_neg hx] at h
      cases h
      simpa using hx

theorem dropWhile_getLast? (l : List Char) (h : l.dropWhile isWS ≠ []) :
    (l.dropWhile isWS).getLast? = l.getLast? := by
  induction l with
  | nil => simp at h
  | cons c cs ih =>
    by_cases hc : isWS c
    · rw [List.dropWhile_cons, if_pos hc] at h ⊢
      rw [ih h]
      cases cs with
      | nil => simp at h
      | cons d ds => rw [List.getLast?_cons_cons]
    · rw [List.dropWhile_cons, if_neg hc]

theorem endsInWS_append (l : List Char) (c : Char) : endsInWS (l ++ [c]) = isWS c := by
  induction l with
  | nil => rfl
  | cons x xs ih =>
    cases xs with
    | nil => simp [endsInWS]
    | cons y ys => simpa [endsInWS] using ih

theorem endsInWS_reverse (m : List Char) :
    endsInWS m.reverse = (match m with | [] => false | c :: _ => isWS c) := by
  cases m with
  | nil => rfl
  | cons c cs => rw [List.reverse_cons, endsInWS_append]

theorem pyStripL_head_not_ws (l : List Char) (c : Char) (cs : List Char)
    (h : pyStripL l = c :: cs) : isWS c = false := by
  have hne : (trimLeadingWS l).reverse.dropWhile isWS ≠ [] := by
    intro hnil
    rw [pyStripL.eq_1, hnil] at h
    simp at h
  have h1 : (pyStripL l).head? = (trimLeadingWS l).head? := by
    rw [pyStripL.eq_1, List.head?_reverse, dropWhile_getLast? _ hne, List.getLast?_reverse]
  rw [h] at h1
  cases htrim : trimLeadingWS l with
  | nil => rw [htrim] at h1; simp at h1
  | cons d ds =>
    rw [htrim] at h1
    simp only [List.head?_cons, Option.some_inj] at h1
    rw [h1]
    exact dropWhile_head_not_ws l d ds htrim

theorem pyStripL_not_endsInWS (l : List Char) : endsInWS (pyStripL l) = false := by
  rw [pyStripL.eq_1, endsInWS_reverse]
  cases hd : (trimLeadingWS l).reverse.dropWhile isWS with
  | nil => rfl
  | cons d ds => exact dropWhile_head_not_ws _ d ds hd

/-- C9 main lemma: the wordCount computed by the route (trim, then
split(/\s+/).length, with 0 for a falsy trimmed string) equals the count of
whitespace-delimited tokens of the original markdown. -/
theorem jsWordCount_eq_specWordCount (s : String) : jsWordCount s = specWordCount s := by
  unfold jsWordCount specWordCount
  by_cases h : pyStripL s.data = []
  · rw [if_pos h]
    have hc := countTokens_pyStripL s.data
    rw [h] at hc
    simpa [countTokens] using hc
  · rw [if_neg h]
    cases ht : pyStripL s.data with
    | nil => exact absurd ht h
    | cons c cs =>
      have hhead : isWS c = false := pyStripL_head_not_ws s.data c cs ht
      have hend : endsInWS (c :: cs) = false := by
        have := pyStripL_not_endsInWS s.data
        rwa [ht] at this
      have hlen := jsFields_length (c :: cs)
      have hruns := countTokens_true_wsRuns (c :: cs)
      rw [hend] at hruns
      have hfalse := countTokens_false_cons c cs
      rw [hhead] at hfalse
      have hstrip := countTokens_pyStripL s.data
      rw [ht] at hstrip
      simp only [Bool.false_eq_true, if_false] at hruns hfalse
      omega

/-- A fetched, parsed page, as the script observes it through BeautifulSoup:
the title text, the href attributes of its `a` elements in document order,
the markdown the per-page content pipeline (content locator, sanitizer,
html2text, word-count filter) produces for it, and whether that content
processing raises an exception (procFails models a raise occurring after
`visited_urls.add` / `pages_crawled += 1` and before any link is enqueued
or content appended). -/
structure Page where
  title : String
  links : List String
  md : String
  procFails : Bool
deriving DecidableEq

/-- The external collaborators of fallback_crawl: `fetch u` models
`requests.get(u, ...)` followed by `response.raise_for_status()` (none =
any exception: network error or non-2xx status such as 404); `netloc`
models `urlparse(u).netloc`; `urljoin` models `urllib.parse.urljoin`. -/
structure CrawlEnv where
  fetch : String → Option Page
  netloc : String → String
  urljoin : String → String → String

/-- The config dict crawl_url builds (lines 305-312 of the concatenated
sources) and fallback_crawl reads. -/
structure Config where
  crawlDepth : Nat
  maxPages : Nat
  includeSubdomains : Bool
  followExternalLinks : Bool
  timeout : Nat
  wordCountThreshold : Nat
deriving DecidableEq

/-- A validated crawl request (the zod crawlRequestSchema of
src/shared/schema.ts, lines 31-52). customHeaders is modelled as an
association list. -/
structure CrawlRequest where
  url : String
  removeImages : Bool
  removeLinks : Bool
  cleanMode : Bool
  extractMetadata : Bool
  crawlDepth : Nat
  maxPages : Nat
  includeSubdomains : Bool
  followExternalLinks : Bool
  waitForSelector : Option String
  excludePatterns : List String
  includePatterns : List String
  customHeaders : List (String × String)
  timeout : Nat
  extractImages : Bool
  extractTables : Bool
  wordCountThreshold : Nat
  onlyMainContent : Bool
deriving DecidableEq

/-- The config dict as crawl_url builds it from the request:
`${options.crawlDepth || 1}` etc — the JS `x || d` default maps the only
falsy Nat, 0, to the default.  Note it carries no include/exclude
patterns. -/
def buildConfig (req : CrawlRequest) : Config :=
  { crawlDepth := if req.crawlDepth = 0 then 1 else req.crawlDepth
    maxPages := if req.maxPages = 0 then 1 else req.maxPages
    includeSubdomains := req.includeSubdomains
    followExternalLinks := req.followExternalLinks
    timeout := if req.timeout = 0 then 30 else req.timeout
    wordCountThreshold := if req.wordCountThreshold = 0 then 1 else req.wordCountThreshold }

/-- The mutable state of the fallback_crawl while loop.  visited models the
Python set visited_urls as its insertion-ordered list; allContent is
all_content; frontier is urls_to_visit; pages is pages_crawled; mainTitle
is main_title (none while the local is unset).  fetchLog is ghost
instrumentation only: it records every URL passed to requests.get, in
order, and no other field ever reads it. -/
structure CrawlState where
  visited : List String
  allContent : List String
  frontier : List String
  pages : Nat
  mainTitle : Option String
  fetchLog : List String
deriving DecidableEq

/-- Python str.startswith, over the character lists (the String library's
position-based startsWith is avoided so that everything evaluates). -/
def strStartsWith (s pre : String) : Bool := pre.data.isPrefixOf s.data

/-- Python str.endswith, over the character lists. -/
def strEndsWith (s suf : String) : Bool := suf.data.isSuffixOf s.data

/-- str.join over a list of strings. -/
def interJoin (sep : String) : List String → String
  | [] => ""
  | [p] => p
  | p :: ps => p ++ sep ++ interJoin sep ps

/-- Relative-URL resolution (lines 205-206): hrefs starting with "/", "./"
or not starting with "http" are resolved against the current URL. -/
def resolveHref (env : CrawlEnv) (currentUrl href : String) : String :=
  if strStartsWith href "/" || strStartsWith href "./" || !strStartsWith href "http"
  then env.urljoin currentUrl href else href

/-- The domain filtering rules (lines 211-218): same host as the seed, or a
subdomain relationship with include_subdomains, or follow_external. -/
def shouldInclude (env : CrawlEnv) (cfg : Config) (base u : String) : Bool :=
  let linkDomain := env.netloc u
  linkDomain == base
    || (cfg.includeSubdomains
         && (strEndsWith linkDomain ("." ++ base) || strEndsWith base ("." ++ linkDomain)))
    || cfg.followExternalLinks

/-- One iteration of the link discovery for-loop (lines 199-221): skip
fragment/mailto/tel hrefs, resolve, apply the domain rules, and append to
the frontier when not already visited or queued. -/
def addLink (env : CrawlEnv) (cfg : Config) (base : String) (visited : List String)
    (currentUrl : String) (frontier : List String) (href : String) : List String :=
  if strStartsWith href "#" || strStartsWith href "mailto:" || strStartsWith href "tel:"
  then frontier
  else
    let r := resolveHref env currentUrl href
    if shouldInclude env cfg base r && !visited.contains r && !frontier.contains r
    then frontier ++ [r] else frontier

/-- The whole link discovery for-loop over the page's hrefs. -/
def extractLinks (env : CrawlEnv) (cfg : Config) (base : String) (visited : List String)
    (currentUrl : String) (frontier : List String) (links : List String) : List String :=
  links.foldl (addLink env cfg base visited currentUrl) frontier

/-- The page-boundary marker (line 282):
`f"\n\n--- Page {pages_crawled}: {current_url} ---\n\n"`. -/
def pageSeparator (n : Nat) (u : String) : String :=
  "\n\n--- Page " ++ toString n ++ ": " ++ u ++ " ---\n\n"

/-- The outcome of one check of the while condition: halt (condition
false) or one more iteration with the new state. -/
inductive StepOut where
  | halt : StepOut
  | next : CrawlState → StepOut
deriving DecidableEq

/-- One iteration of the fallback_crawl while loop (lines 178-288): test
the loop condition, pop the frontier head, skip a visited URL, skip a URL
whose fetch raises, otherwise mark visited, count the page, capture the
first page's title, run link discovery when
`pages_crawled < max_pages and crawl_depth > 1`, and append the page's
(stripped) markdown, preceded by a separator from page 2 on.  When
pg.procFails, the per-page except clause fires after the visited/counter
updates, so nothing is enqueued or appended. -/
def crawlStep (env : CrawlEnv) (cfg : Config) (base : String) (s : CrawlState) : StepOut :=
  match s.frontier with
  | [] => .halt
  | currentUrl :: rest =>
    if s.pages < cfg.maxPages then
      if s.visited.contains currentUrl then
        .next { s with frontier := rest }
      else
        match env.fetch currentUrl with
        | none => .next { s with frontier := rest, fetchLog := s.fetchLog ++ [currentUrl] }
        | some pg =>
          let visited2 := s.visited ++ [currentUrl]
          let pages2 := s.pages + 1
          let log2 := s.fetchLog ++ [currentUrl]
          if pg.procFails then
            .next { visited := visited2, allContent := s.allContent, frontier := rest,
                    pages := pages2, mainTitle := s.mainTitle, fetchLog := log2 }
          else
            .next { visited := visited2,
                    allContent := s.allContent
                      ++ (if 1 < pages2 then [pageSeparator pages2 currentUrl] else [])
                      ++ [pyStrip pg.md],
                    frontier := if pages2 < cfg.maxPages ∧ 1 < cfg.crawlDepth
                                then extractLinks env cfg base visited2 currentUrl rest pg.links
                                else rest,
                    pages := pages2,
                    mainTitle := if pages2 = 1 then some pg.title else s.mainTitle,
                    fetchLog := log2 }
    else .halt

theorem crawlStep_decreases {env : CrawlEnv} {cfg : Config} {base : String}
    {s s2 : CrawlState} (h : crawlStep env cfg base s = .next s2) :
    cfg.maxPages - s2.pages < cfg.maxPages - s.pages ∨
      (cfg.maxPages - s2.pages = cfg.maxPages - s.pages ∧
        s2.frontier.length < s.frontier.length) := by
  unfold crawlStep at h
  split at h
  · exact absurd h (by simp)
  · rename_i currentUrl rest heq
    split at h
    · rename_i hp
      split at h
      · injection h with h2
        subst h2
        right
        refine ⟨rfl, ?_⟩
        rw [heq]
        simp
      · split at h
        · injection h with h2
          subst h2
          right
          refine ⟨rfl, ?_⟩
          rw [heq]
          simp
        · split at h
          · injection h with h2
            subst h2
            left
            simp only
            omega
          · injection h with h2
            subst h2
            left
            simp only
            omega
    · exact absurd h (by simp)

/-- The fallback_crawl while loop (lines 178-288), iterated to
termination.  Terminates because each iteration either crawls a page
(pages_crawled grows toward max_pages) or pops a frontier entry without
growing the frontier. -/
def crawlLoop (env : CrawlEnv) (cfg : Config) (base : String) (s : CrawlState) : CrawlState :=
  match h : crawlStep env cfg base s with
  | .halt => s
  | .next s2 => crawlLoop env cfg base s2
termination_by (cfg.maxPages - s.pages, s.frontier.length)
decreasing_by
  rcases crawlStep_decreases h with h1 | ⟨h1, h2⟩
  · exact Prod.Lex.left _ _ h1
  · rw [h1]
    exact Prod.Lex.right _ h2

theorem crawlLoop_halt {env : CrawlEnv} {cfg : Config} {base : String} {s : CrawlState}
    (h : crawlStep env cfg base s = .halt) : crawlLoop env cfg base s = s := by
  rw [crawlLoop]
  split
  · rfl
  · next s2 h2 => rw [h] at h2; exact absurd h2 (by simp)

theorem crawlLoop_next {env : CrawlEnv} {cfg : Config} {base : String} {s s2 : CrawlState}
    (h : crawlStep env cfg base s = .next s2) :
    crawlLoop env cfg base s = crawlLoop env cfg base s2 := by
  rw [crawlLoop]
  split
  · next h2 => rw [h] at h2; exact absurd h2 (by simp)
  · next s3 h2 =>
    rw [h] at h2
    cases h2
    rfl

/-- The loop state fallback_crawl starts from (lines 165-174). -/
def initState (url : String) : CrawlState :=
  { visited := [], allContent := [], frontier := [url], pages := 0,
    mainTitle := none, fetchLog := [] }

/-- The loop state fallback_crawl ends in.  base_domain is
`urlparse(url).netloc` of the seed. -/
def fallbackFinal (env : CrawlEnv) (cfg : Config) (url : String) : CrawlState :=
  crawlLoop env cfg (env.netloc url) (initState url)

/-- The dict shape both strategies produce: {"markdown": ..., "title": ...}. -/
structure PyOut where
  markdown : String
  title : String
deriving DecidableEq

/-- `'\n\n'.join(filter(None, all_content))` (line 291): drop falsy (empty)
strings, join with a blank line. -/
def joinContent (parts : List String) : String :=
  interJoin "\n\n" (parts.filter (fun p => !(p == "")))

/-- fallback_crawl (lines 154-301): run the loop, combine the collected
content, and default the title to "Multi-page Crawl Results" when
main_title was never set (no page was successfully crawled).  Fetch
errors, of the seed like of any page, are swallowed by the per-page except
clause, so the function itself never fails through them. -/
def fallback_crawl (env : CrawlEnv) (cfg : Config) (url : String) : PyOut :=
  { markdown := joinContent (fallbackFinal env cfg url).allContent,
    title := (fallbackFinal env cfg url).mainTitle.getD "Multi-page Crawl Results" }

/-- What the crawl4ai library's arun returns, as the script reads it:
success flag, markdown (None becomes ""), and the title drawn from
metadata ("Untitled" when metadata is absent or has no title). -/
structure C4aiResult where
  success : Bool
  markdown : Option String
  titleMeta : Option String
deriving DecidableEq

/-- The first strategy (lines 314-348): an exception from import/arun is
`.error`; a returned result with success=false prints and raises
"Crawl4AI failed"; success produces the output dict. -/
def crawl4aiStrategy (r : Except String C4aiResult) : Except String PyOut :=
  match r with
  | .error e => .error e
  | .ok res =>
    if res.success then
      .ok { markdown := res.markdown.getD "", title := res.titleMeta.getD "Untitled" }
    else .error "Crawl4AI failed"

/-- The try/except chain of crawl_url: the first strategy's success is
returned; any failure of it falls through to the second strategy, whose
outcome (success or error) is the overall outcome. -/
def tryStrategies (first second : Except String PyOut) : Except String PyOut :=
  match first with
  | .ok r => .ok r
  | .error _ => second

/-- crawl_url (lines 303-359): build the config from the request, try
Crawl4AI, and on any failure run fallback_crawl (which, in this model,
always returns a dict — see fallback_crawl).  A fallback exception would
reach the outer except and exit with that (last) error. -/
def crawl_url (c4 : Except String C4aiResult) (env : CrawlEnv) (req : CrawlRequest) :
    Except String PyOut :=
  tryStrategies (crawl4aiStrategy c4) (.ok (fallback_crawl env (buildConfig req) req.url))

theorem contains_false_not_mem {l : List String} {a : String}
    (h : l.contains a = false) : a ∉ l := by
  intro hm
  have h2 : l.contains a = true := List.elem_iff.mpr hm
  rw [h2] at h
  cases h

theorem count_append_one (l : List String) (a b : String) :
    List.count b (l ++ [a]) = List.count b l + (if a = b then 1 else 0) := by
  rw [List.count_append, List.count_singleton]
  by_cases h : a = b
  · simp [h]
  · simp [h]

/-- Any property preserved by every loop iteration holds of the final
state. -/
theorem crawlLoop_inv (env : CrawlEnv) (cfg : Config) (base : String)
    (I : CrawlState → Prop)
    (hstep : ∀ s s2, crawlStep env cfg base s = .next s2 → I s → I s2)
    (s : CrawlState) : I s → I (crawlLoop env cfg base s) := by
  refine crawlLoop.induct env cfg base
    (fun x => I x → I (crawlLoop env cfg base x)) ?_ ?_ s
  · intro x hhalt hI
    rwa [crawlLoop_halt hhalt]
  · intro x s2 hnext ih hI
    rw [crawlLoop_next hnext]
    exact ih (hstep x s2 hnext hI)

/-- One step preserves the dedup bookkeeping for a URL whose fetch
succeeds: it is counted once in the fetch log when visited, zero times
otherwise.  (A URL whose fetch raises is never added to visited, so it is
outside this invariant.) -/
theorem fetchOnce_step (env : CrawlEnv) (cfg : Config) (base u : String)
    (hsome : (env.fetch u).isSome = true) (s s2 : CrawlState)
    (h : crawlStep env cfg base s = .next s2)
    (h1 : u ∈ s.visited → List.count u s.fetchLog = 1)
    (h2 : u ∉ s.visited → List.count u s.fetchLog = 0) :
    (u ∈ s2.visited → List.count u s2.fetchLog = 1) ∧
    (u ∉ s2.visited → List.count u s2.fetchLog = 0) := by
  unfold crawlStep at h
  split at h
  · exact absurd h (by simp)
  · rename_i currentUrl rest heq
    split at h
    · rename_i hp
      split at h
      · injection h with h3
        subst h3
        exact ⟨h1, h2⟩
      · rename_i hv
        have hvm : currentUrl ∉ s.visited := contains_false_not_mem (by simpa using hv)
        split at h
        · rename_i hfetch
          have hne : ¬(currentUrl = u) := by
            intro hh
            rw [hh] at hfetch
            rw [hfetch] at hsome
            cases hsome
          injection h with h3
          subst h3
          constructor
          · intro hm
            show List.count u (s.fetchLog ++ [currentUrl]) = 1
            rw [count_append_one, h1 hm]
            simp [hne]
          · intro hm
            show List.count u (s.fetchLog ++ [currentUrl]) = 0
            rw [count_append_one, h2 hm]
            simp [hne]
        · rename_i pg hfetch
          have key : ∀ s3 : CrawlState, s3.visited = s.visited ++ [currentUrl] →
              s3.fetchLog = s.fetchLog ++ [currentUrl] →
              (u ∈ s3.visited → List.count u s3.fetchLog = 1) ∧
              (u ∉ s3.visited → List.count u s3.fetchLog = 0) := by
            intro s3 hsv hsl
            rw [hsv, hsl]
            by_cases hcu : currentUrl = u
            · subst hcu
              constructor
              · intro _
                rw [count_append_one, h2 hvm]
                simp
              · intro hm
                exact absurd (List.mem_append.2 (.inr (List.mem_singleton.2 rfl))) hm
            · constructor
              · intro hm
                have hmu : u ∈ s.visited := by
                  rcases List.mem_append.1 hm with h' | h'
                  · exact h'
                  · exact absurd (List.mem_singleton.1 h').symm hcu
                rw [count_append_one, h1 hmu]
                simp [hcu]
              · intro hm
                have hmu : u ∉ s.visited := fun hh => hm (List.mem_append.2 (.inl hh))
                rw [count_append_one, h2 hmu]
                simp [hcu]
          split at h
          · injection h with h3
            subst h3
            exact key _ rfl rfl
          · injection h with h3
            subst h3
            exact key _ rfl rfl
    · exact absurd h (by simp)

/-- C2 (amended, general part): a URL whose fetch succeeds is never
fetched twice in one invocation. -/
theorem successful_url_fetched_at_most_once (env : CrawlEnv) (cfg : Config) (url u : String)
    (hsome : (env.fetch u).isSome = true) :
    List.count u (fallbackFinal env cfg url).fetchLog ≤ 1 := by
  have hI := crawlLoop_inv env cfg (env.netloc url)
    (fun s => (u ∈ s.visited → List.count u s.fetchLog = 1) ∧
              (u ∉ s.visited → List.count u s.fetchLog = 0))
    (fun s s2 h hs => fetchOnce_step env cfg (env.netloc url) u hsome s s2 h hs.1 hs.2)
    (initState url)
    ⟨fun hm => absurd hm (by simp [initState]), fun _ => by simp [initState]⟩
  unfold fallbackFinal
  rcases hI with ⟨ha, hb⟩
  by_cases hm : u ∈ (crawlLoop env cfg (env.netloc url) (initState url)).visited
  · rw [ha hm]
  · rw [hb hm]
    omega

/-- The seed page of the refetch scenario: links to a and b. -/
def pageS : Page :=
  { title := "S", links := ["http://h/a", "http://h/b"], md := "s", procFails := false }

/-- Page b of the refetch scenario: links back to a. -/
def pageB : Page :=
  { title := "B", links := ["http://h/a"], md := "b", procFails := false }

/-- The refetch scenario: s and b fetch fine, a's fetch always raises. -/
def envRefetch : CrawlEnv :=
  { fetch := fun u =>
      if u = "http://h/s" then some pageS
      else if u = "http://h/b" then some pageB
      else none,
    netloc := fun _ => "h",
    urljoin := fun _ href => href }

def cfgRefetch : Config :=
  { crawlDepth := 2, maxPages := 4, includeSubdomains := false,
    followExternalLinks := false, timeout := 30, wordCountThreshold := 1 }

def s1R : CrawlState :=
  { visited := ["http://h/s"], allContent := ["s"],
    frontier := ["http://h/a", "http://h/b"], pages := 1,
    mainTitle := some "S", fetchLog := ["http://h/s"] }

def s2R : CrawlState :=
  { visited := ["http://h/s"], allContent := ["s"],
    frontier := ["http://h/b"], pages := 1,
    mainTitle := some "S", fetchLog := ["http://h/s", "http://h/a"] }

def s3R : CrawlState :=
  { visited := ["http://h/s", "http://h/b"],
    allContent := ["s", "\n\n--- Page 2: http://h/b ---\n\n", "b"],
    frontier := ["http://h/a"], pages := 2,
    mainTitle := some "S", fetchLog := ["http://h/s", "http://h/a", "http://h/b"] }

def s4R : CrawlState :=
  { visited := ["http://h/s", "http://h/b"],
    allContent := ["s", "\n\n--- Page 2: http://h/b ---\n\n", "b"],
    frontier := [], pages := 2,
    mainTitle := some "S",
    fetchLog := ["http://h/s", "http://h/a", "http://h/b", "http://h/a"] }

/-- C2 counterexample: URL http://h/a is fetched at the second iteration
(its fetch raises, so it is never marked visited), is re-discovered on
page b, re-enters the frontier and is fetched a second time: the fetch
log holds it twice. -/
theorem failed_url_refetched :
    (fallbackFinal envRefetch cfgRefetch "http://h/s").fetchLog
        = ["http://h/s", "http://h/a", "http://h/b", "http://h/a"] ∧
    List.count "http://h/a" (fallbackFinal envRefetch cfgRefetch "http://h/s").fetchLog = 2 := by
  have hfin : fallbackFinal envRefetch cfgRefetch "http://h/s" = s4R := by
    unfold fallbackFinal
    rw [show envRefetch.netloc "http://h/s" = "h" from rfl]
    rw [crawlLoop_next (show crawlStep envRefetch cfgRefetch "h" (initState "http://h/s")
          = .next s1R by decide)]
    rw [crawlLoop_next (show crawlStep envRefetch cfgRefetch "h" s1R = .next s2R by decide)]
    rw [crawlLoop_next (show crawlStep envRefetch cfgRefetch "h" s2R = .next s3R by decide)]
    rw [crawlLoop_next (show crawlStep envRefetch cfgRefetch "h" s3R = .next s4R by decide)]
    exact crawlLoop_halt (show crawlStep envRefetch cfgRefetch "h" s4R = .halt by decide)
  rw [hfin]
  exact ⟨rfl, by decide⟩

theorem successful_url_fetched_at_most_once_witness :
    ((envRefetch.fetch "http://h/s").isSome = true) ∧
    List.count "http://h/s" (fallbackFinal envRefetch cfgRefetch "http://h/s").fetchLog ≤ 1 :=
  ⟨by decide,
   successful_url_fetched_at_most_once envRefetch cfgRefetch "http://h/s" "http://h/s" (by decide)⟩

/-- A request with the zod schema's default for every optional field
(src/shared/schema.ts lines 31-52). -/
def defaultRequest (url : String) : CrawlRequest :=
  { url := url, removeImages := false, removeLinks := false, cleanMode := true,
    extractMetadata := false, crawlDepth := 1, maxPages := 1,
    includeSubdomains := false, followExternalLinks := false,
    waitForSelector := none, excludePatterns := [], includePatterns := [],
    customHeaders := [], timeout := 30, extractImages := false,
    extractTables := true, wordCountThreshold := 1, onlyMainContent := true }

/-- An environment in which every fetch raises (e.g. every GET gets an
HTTP 404, so raise_for_status throws). -/
def envSeedFail : CrawlEnv :=
  { fetch := fun _ => none, netloc := fun _ => "example.com",
    urljoin := fun _ href => href }

/-- C1 counterexample: with the rendering strategy failed over to the
fallback and the seed fetch returning HTTP 404, the invocation does NOT
fail: the per-page except clause swallows the seed error, the loop ends
with an empty frontier, and crawl_url returns an ok CrawlResult with
empty markdown, the default title, and zero pages crawled. -/
theorem seed_404_returns_ok :
    envSeedFail.fetch "http://example.com/" = none ∧
    crawl_url (.error "Crawl4AI failed") envSeedFail (defaultRequest "http://example.com/") =
      .ok { markdown := "", title := "Multi-page Crawl Results" } ∧
    (fallbackFinal envSeedFail (buildConfig (defaultRequest "http://example.com/"))
        "http://example.com/").pages = 0 := by
  have hstep : crawlStep envSeedFail (buildConfig (defaultRequest "http://example.com/"))
      "example.com" (initState "http://example.com/") = .next
      { visited := [], allContent := [], frontier := [], pages := 0,
        mainTitle := none, fetchLog := ["http://example.com/"] } := by decide
  have hfin : fallbackFinal envSeedFail (buildConfig (defaultRequest "http://example.com/"))
      "http://example.com/" =
      { visited := [], allContent := [], frontier := [], pages := 0,
        mainTitle := none, fetchLog := ["http://example.com/"] } := by
    unfold fallbackFinal
    rw [show envSeedFail.netloc "http://example.com/" = "example.com" from rfl]
    rw [crawlLoop_next hstep]
    exact crawlLoop_halt rfl
  refine ⟨rfl, ?_, ?_⟩
  · unfold crawl_url tryStrategies crawl4aiStrategy fallback_crawl
    rw [show (defaultRequest "http://example.com/").url = "http://example.com/" from rfl, hfin]
    rfl
  · rw [hfin]

/-- C1 (amended): a seed fetch error (HTTP error status or network
failure) is caught by the per-page except clause like any other page's:
the invocation does not fail; fallback_crawl returns a CrawlResult whose
markdown is empty and whose title is the default, with zero pages
crawled. -/
theorem seed_fetch_error_skipped (env : CrawlEnv) (cfg : Config) (url : String)
    (h : env.fetch url = none) :
    fallback_crawl env cfg url = { markdown := "", title := "Multi-page Crawl Results" } ∧
    (fallbackFinal env cfg url).pages = 0 := by
  by_cases hp : 0 < cfg.maxPages
  · have hstep : crawlStep env cfg (env.netloc url) (initState url) = .next
        { visited := [], allContent := [], frontier := [], pages := 0,
          mainTitle := none, fetchLog := [url] } := by
      unfold crawlStep initState
      simp [hp, h]
    have hfin : fallbackFinal env cfg url =
        { visited := [], allContent := [], frontier := [], pages := 0,
          mainTitle := none, fetchLog := [url] } := by
      unfold fallbackFinal
      rw [crawlLoop_next hstep]
      exact crawlLoop_halt rfl
    refine ⟨?_, ?_⟩
    · unfold fallback_crawl
      rw [hfin]
      rfl
    · rw [hfin]
  · have hfin : fallbackFinal env cfg url = initState url := by
      unfold fallbackFinal
      apply crawlLoop_halt
      unfold crawlStep initState
      simp [hp]
    refine ⟨?_, ?_⟩
    · unfold fallback_crawl
      rw [hfin]
      rfl
    · rw [hfin]
      rfl

theorem seed_fetch_error_skipped_witness :
    envSeedFail.fetch "http://example.com/x" = none ∧
    (fallback_crawl envSeedFail cfgRefetch "http://example.com/x" =
        { markdown := "", title := "Multi-page Crawl Results" } ∧
      (fallbackFinal envSeedFail cfgRefetch "http://example.com/x").pages = 0) :=
  ⟨rfl, seed_fetch_error_skipped envSeedFail cfgRefetch "http://example.com/x" rfl⟩

/-- The chain scenario s -> a -> b -> c: each page links to the next, all
on one host. -/
def envChain : CrawlEnv :=
  { fetch := fun u =>
      if u = "http://h/s" then
        some { title := "S", links := ["http://h/a"], md := "s", procFails := false }
      else if u = "http://h/a" then
        some { title := "A", links := ["http://h/b"], md := "a", procFails := false }
      else if u = "http://h/b" then
        some { title := "B", links := ["http://h/c"], md := "b", procFails := false }
      else if u = "http://h/c" then
        some { title := "C", links := [], md := "c", procFails := false }
      else none,
    netloc := fun _ => "h",
    urljoin := fun _ href => href }

def cfgChain : Config :=
  { crawlDepth := 2, maxPages := 10, includeSubdomains := false,
    followExternalLinks := false, timeout := 30, wordCountThreshold := 1 }

def t1C : CrawlState :=
  { visited := ["http://h/s"], allContent := ["s"], frontier := ["http://h/a"],
    pages := 1, mainTitle := some "S", fetchLog := ["http://h/s"] }

def t2C : CrawlState :=
  { visited := ["http://h/s", "http://h/a"],
    allContent := ["s", "\n\n--- Page 2: http://h/a ---\n\n", "a"],
    frontier := ["http://h/b"], pages := 2, mainTitle := some "S",
    fetchLog := ["http://h/s", "http://h/a"] }

def t3C : CrawlState :=
  { visited := ["http://h/s", "http://h/a", "http://h/b"],
    allContent := ["s", "\n\n--- Page 2: http://h/a ---\n\n", "a",
                   "\n\n--- Page 3: http://h/b ---\n\n", "b"],
    frontier := ["http://h/c"], pages := 3, mainTitle := some "S",
    fetchLog := ["http://h/s", "http://h/a", "http://h/b"] }

def t4C : CrawlState :=
  { visited := ["http://h/s", "http://h/a", "http://h/b", "http://h/c"],
    allContent := ["s", "\n\n--- Page 2: http://h/a ---\n\n", "a",
                   "\n\n--- Page 3: http://h/b ---\n\n", "b",
                   "\n\n--- Page 4: http://h/c ---\n\n", "c"],
    frontier := [], pages := 4, mainTitle := some "S",
    fetchLog := ["http://h/s", "http://h/a", "http://h/b", "http://h/c"] }

/-- C3 counterexample: with maxDepth (crawl_depth) = 2 the page
http://h/b sits at BFS layer 2 from the seed, so under the claim it must
spawn no further discovery and http://h/c (layer 3) must never be fetched
and at most 3 pages crawled.  The code gates link extraction only on
`pages_crawled < max_pages and crawl_depth > 1`, so c is discovered,
fetched, and 4 pages are crawled. -/
theorem layer_beyond_maxDepth_spawns :
    cfgChain.crawlDepth = 2 ∧
    (fallbackFinal envChain cfgChain "http://h/s").fetchLog
        = ["http://h/s", "http://h/a", "http://h/b", "http://h/c"] ∧
    (fallbackFinal envChain cfgChain "http://h/s").pages = 4 := by
  have hfin : fallbackFinal envChain cfgChain "http://h/s" = t4C := by
    unfold fallbackFinal
    rw [show envChain.netloc "http://h/s" = "h" from rfl]
    rw [crawlLoop_next (show crawlStep envChain cfgChain "h" (initState "http://h/s")
          = .next t1C by decide)]
    rw [crawlLoop_next (show crawlStep envChain cfgChain "h" t1C = .next t2C by decide)]
    rw [crawlLoop_next (show crawlStep envChain cfgChain "h" t2C = .next t3C by decide)]
    rw [crawlLoop_next (show crawlStep envChain cfgChain "h" t3C = .next t4C by decide)]
    exact crawlLoop_halt (show crawlStep envChain cfgChain "h" t4C = .halt by decide)
  rw [hfin]
  exact ⟨rfl, rfl, rfl⟩

/-- C3 (amended): link extraction is gated only by
`pages_crawled < max_pages` (after the increment) and the constant
`crawl_depth > 1`; no BFS layer is tracked.  Consequently with
crawl_depth <= 1 no page spawns discovery and at most one page (the seed)
is ever fetched, while with crawl_depth > 1 every crawled page spawns
discovery up to max_pages, whatever its layer. -/
theorem link_extraction_depth_gate (env : CrawlEnv) (cfg : Config) (url : String) :
    (cfg.crawlDepth ≤ 1 →
      (fallbackFinal env cfg url).pages ≤ 1 ∧
        (fallbackFinal env cfg url).fetchLog.length ≤ 1) ∧
    (∀ (base : String) (s : CrawlState) (currentUrl : String) (rest : List String) (pg : Page),
      s.frontier = currentUrl :: rest → s.pages < cfg.maxPages →
      s.visited.contains currentUrl = false → env.fetch currentUrl = some pg →
      pg.procFails = false →
      crawlStep env cfg base s = .next
        { visited := s.visited ++ [currentUrl],
          allContent := s.allContent
            ++ (if 1 < s.pages + 1 then [pageSeparator (s.pages + 1) currentUrl] else [])
            ++ [pyStrip pg.md],
          frontier := if s.pages + 1 < cfg.maxPages ∧ 1 < cfg.crawlDepth
                      then extractLinks env cfg base (s.visited ++ [currentUrl])
                             currentUrl rest pg.links
                      else rest,
          pages := s.pages + 1,
          mainTitle := if s.pages + 1 = 1 then some pg.title else s.mainTitle,
          fetchLog := s.fetchLog ++ [currentUrl] }) := by
  constructor
  · intro hd
    by_cases hp : 0 < cfg.maxPages
    · cases hfetch : env.fetch url with
      | none =>
        have hstep : crawlStep env cfg (env.netloc url) (initState url) = .next
            { visited := [], allContent := [], frontier := [], pages := 0,
              mainTitle := none, fetchLog := [url] } := by
          unfold crawlStep initState
          simp [hp, hfetch]
        have hfin : fallbackFinal env cfg url =
            { visited := [], allContent := [], frontier := [], pages := 0,
              mainTitle := none, fetchLog := [url] } := by
          unfold fallbackFinal
          rw [crawlLoop_next hstep]
          exact crawlLoop_halt rfl
        rw [hfin]
        exact ⟨by simp, by simp⟩
      | some pg =>
        by_cases hpf : pg.procFails
        · have hstep : crawlStep env cfg (env.netloc url) (initState url) = .next
              { visited := [url], allContent := [], frontier := [], pages := 1,
                mainTitle := none, fetchLog := [url] } := by
            unfold crawlStep initState
            simp [hp, hfetch, hpf]
          have hfin : fallbackFinal env cfg url =
              { visited := [url], allContent := [], frontier := [], pages := 1,
                mainTitle := none, fetchLog := [url] } := by
            unfold fallbackFinal
            rw [crawlLoop_next hstep]
            exact crawlLoop_halt rfl
          rw [hfin]
          exact ⟨by simp, by simp⟩
        · have hcond : ¬(0 + 1 < cfg.maxPages ∧ 1 < cfg.crawlDepth) := by omega
          have hstep : crawlStep env cfg (env.netloc url) (initState url) = .next
              { visited := [url], allContent := [pyStrip pg.md], frontier := [],
                pages := 1, mainTitle := some pg.title, fetchLog := [url] } := by
            unfold crawlStep initState
            simp [hp, hfetch, hpf, hcond]
          have hfin : fallbackFinal env cfg url =
              { visited := [url], allContent := [pyStrip pg.md], frontier := [],
                pages := 1, mainTitle := some pg.title, fetchLog := [url] } := by
            unfold fallbackFinal
            rw [crawlLoop_next hstep]
            exact crawlLoop_halt rfl
          rw [hfin]
          exact ⟨by simp, by simp⟩
    · have hfin : fallbackFinal env cfg url = initState url := by
        unfold fallbackFinal
        apply crawlLoop_halt
        unfold crawlStep initState
        simp [hp]
      rw [hfin]
      exact ⟨by simp [initState], by simp [initState]⟩
  · intro base s currentUrl rest pg hf hp hv hfetch hproc
    have hv2 : currentUrl ∉ s.visited := contains_false_not_mem hv
    unfold crawlStep
    rw [hf]
    simp [hp, hv, hv2, hfetch, hproc]

/-- The pattern scenario: the seed links to http://h/b; the request marks
that very URL in excludePatterns and a non-matching entry in
includePatterns. -/
def reqC4 : CrawlRequest :=
  { defaultRequest "http://h/s" with
    crawlDepth := 2
    maxPages := 5
    excludePatterns := ["http://h/b"]
    includePatterns := ["never"] }

def envC4 : CrawlEnv :=
  { fetch := fun u =>
      if u = "http://h/s" then
        some { title := "S", links := ["http://h/b"], md := "s", procFails := false }
      else if u = "http://h/b" then
        some { title := "B", links := [], md := "b", procFails := false }
      else none,
    netloc := fun _ => "h",
    urljoin := fun _ href => href }

def u1C4 : CrawlState :=
  { visited := ["http://h/s"], allContent := ["s"], frontier := ["http://h/b"],
    pages := 1, mainTitle := some "S", fetchLog := ["http://h/s"] }

def u2C4 : CrawlState :=
  { visited := ["http://h/s", "http://h/b"],
    allContent := ["s", "\n\n--- Page 2: http://h/b ---\n\n", "b"],
    frontier := [], pages := 2, mainTitle := some "S",
    fetchLog := ["http://h/s", "http://h/b"] }

/-- C4 counterexample: http://h/b appears verbatim in excludePatterns (so
it matches an exclude entry under any matching semantics) and matches no
includePatterns entry, yet it is admitted and fetched: the config built by
crawl_url carries no patterns at all. -/
theorem exclude_pattern_ignored :
    "http://h/b" ∈ reqC4.excludePatterns ∧
    reqC4.includePatterns = ["never"] ∧
    (fallbackFinal envC4 (buildConfig reqC4) "http://h/s").fetchLog
        = ["http://h/s", "http://h/b"] := by
  have hfin : fallbackFinal envC4 (buildConfig reqC4) "http://h/s" = u2C4 := by
    unfold fallbackFinal
    rw [show envC4.netloc "http://h/s" = "h" from rfl]
    rw [crawlLoop_next (show crawlStep envC4 (buildConfig reqC4) "h" (initState "http://h/s")
          = .next u1C4 by decide)]
    rw [crawlLoop_next (show crawlStep envC4 (buildConfig reqC4) "h" u1C4 = .next u2C4 by decide)]
    exact crawlLoop_halt (show crawlStep envC4 (buildConfig reqC4) "h" u2C4 = .halt by decide)
  rw [hfin]
  exact ⟨List.mem_singleton.2 rfl, rfl, rfl⟩

/-- C4 (amended): excludePatterns and includePatterns are accepted by the
request schema but dropped when crawl_url builds the crawler config, so
the whole invocation is independent of them; link admission uses only the
domain rules and the visited/queued checks. -/
theorem patterns_not_used (env : CrawlEnv) (req : CrawlRequest) (p q : List String)
    (c4 : Except String C4aiResult) :
    buildConfig { req with excludePatterns := p, includePatterns := q } = buildConfig req ∧
    crawl_url c4 env { req with excludePatterns := p, includePatterns := q } =
      crawl_url c4 env req :=
  ⟨rfl, rfl⟩

/-- C5: the strategy selector tries the rendering engine (Crawl4AI)
first and the static fallback second; the first success is the result,
a strategy that throws or reports failure falls through, and when both
fail the overall outcome is the last strategy's error. -/
theorem strategy_selector_spec (c4 : Except String C4aiResult) (env : CrawlEnv)
    (req : CrawlRequest) (r : PyOut) (fb : Except String PyOut) (e e2 : String) :
    (tryStrategies (.ok r) fb = .ok r) ∧
    (tryStrategies (.error e) fb = fb) ∧
    (tryStrategies (.error e) (.error e2) = .error e2) ∧
    (crawl4aiStrategy c4 = .ok r → crawl_url c4 env req = .ok r) ∧
    (crawl4aiStrategy c4 = .error e →
      crawl_url c4 env req = .ok (fallback_crawl env (buildConfig req) req.url)) := by
  refine ⟨rfl, rfl, rfl, ?_, ?_⟩
  · intro h
    unfold crawl_url
    rw [h]
    rfl
  · intro h
    unfold crawl_url
    rw [h]
    rfl

/-- C10: when the fetch of a page succeeds, the URL is added to
visited_urls and pages_crawled is incremented at once; an exception
raised during the page's content processing (procFails) leaves those
updates in place, enqueues nothing and appends no markdown: the page
still counts toward pages_crawled and the maxPages limit while the
aggregate content is unchanged. -/
theorem processing_failure_page_counts (env : CrawlEnv) (cfg : Config) (base : String)
    (s : CrawlState) (currentUrl : String) (rest : List String) (pg : Page)
    (hf : s.frontier = currentUrl :: rest) (hp : s.pages < cfg.maxPages)
    (hv : s.visited.contains currentUrl = false) (hfetch : env.fetch currentUrl = some pg)
    (hproc : pg.procFails = true) :
    crawlStep env cfg base s = .next
      { visited := s.visited ++ [currentUrl], allContent := s.allContent,
        frontier := rest, pages := s.pages + 1, mainTitle := s.mainTitle,
        fetchLog := s.fetchLog ++ [currentUrl] } := by
  have hv2 : currentUrl ∉ s.visited := contains_false_not_mem hv
  unfold crawlStep
  rw [hf]
  simp [hp, hv, hv2, hfetch, hproc]

/-- An environment whose every page fetches fine but fails during content
processing. -/
def envProcFail : CrawlEnv :=
  { fetch := fun _ => some { title := "T", links := [], md := "m", procFails := true },
    netloc := fun _ => "h",
    urljoin := fun _ href => href }

theorem addLink_mem (env : CrawlEnv) (cfg : Config) (base : String) (visited : List String)
    (cur : String) (frontier : List String) (href u : String)
    (hsub : cfg.includeSubdomains = false) (hext : cfg.followExternalLinks = false)
    (hu : u ∈ addLink env cfg base visited cur frontier href) :
    u ∈ frontier ∨ env.netloc u = base := by
  unfold addLink at hu
  dsimp only [] at hu
  split at hu
  · exact .inl hu
  · split at hu
    · rename_i hcond
      rcases List.mem_append.1 hu with h' | h'
      · exact .inl h'
      · right
        have hr := List.mem_singleton.1 h'
        subst hr
        have hsi : shouldInclude env cfg base (resolveHref env cur href) = true := by
          simp only [Bool.and_eq_true] at hcond
          exact hcond.1.1
        unfold shouldInclude at hsi
        rw [hsub, hext] at hsi
        simpa using hsi
    · exact .inl hu

theorem extractLinks_mem (env : CrawlEnv) (cfg : Config) (base : String)
    (visited : List String) (cur : String) :
    ∀ (links frontier : List String) (u : String),
      cfg.includeSubdomains = false → cfg.followExternalLinks = false →
      u ∈ extractLinks env cfg base visited cur frontier links →
      u ∈ frontier ∨ env.netloc u = base := by
  intro links
  induction links with
  | nil =>
    intro frontier u _ _ hu
    exact .inl hu
  | cons l ls ih =>
    intro frontier u hs he hu
    unfold extractLinks at hu
    rw [List.foldl_cons] at hu
    rcases ih (addLink env cfg base visited cur frontier l) u hs he hu with h' | h'
    · exact addLink_mem env cfg base visited cur frontier l u hs he h'
    · exact .inr h'

/-- C6: with includeSubdomains=false and followExternalLinks=false, every
URL the link discovery newly admits to the frontier has host (netloc)
equal to the seed URL's host (base_domain), whatever mixed-host links the
document carries. -/
theorem link_extractor_same_host_only (env : CrawlEnv) (cfg : Config)
    (visited : List String) (seed cur : String) (frontier links : List String) (u : String)
    (hsub : cfg.includeSubdomains = false) (hext : cfg.followExternalLinks = false)
    (hu : u ∈ extractLinks env cfg (env.netloc seed) visited cur frontier links)
    (hnew : u ∉ frontier) :
    env.netloc u = env.netloc seed := by
  rcases extractLinks_mem env cfg (env.netloc seed) visited cur links frontier u
      hsub hext hu with h' | h'
  · exact absurd h' hnew
  · exact h'

/-- A one-host environment used to instantiate the link extractor. -/
def envHost : CrawlEnv :=
  { fetch := fun _ => none, netloc := fun _ => "h", urljoin := fun _ href => href }

theorem link_extractor_same_host_only_witness :
    cfgRefetch.includeSubdomains = false ∧
    cfgRefetch.followExternalLinks = false ∧
    "http://h/x" ∈ extractLinks envHost cfgRefetch (envHost.netloc "http://h/s") []
        "http://h/s" [] ["http://h/x"] ∧
    "http://h/x" ∉ ([] : List String) ∧
    envHost.netloc "http://h/x" = envHost.netloc "http://h/s" :=
  ⟨rfl, rfl, by decide, by decide,
   link_extractor_same_host_only envHost cfgRefetch [] "http://h/s" "http://h/s" []
     ["http://h/x"] "http://h/x" rfl rfl (by decide) (by decide)⟩

mutual
/-- A DOM element as BeautifulSoup presents it: tag name and children. -/
inductive HNode where
  | elem : String → HForest → HNode
/-- A sequence of sibling DOM nodes. -/
inductive HForest where
  | nil : HForest
  | cons : HNode → HForest → HForest
end

def appendF : HForest → HForest → HForest
  | .nil, g => g
  | .cons n f, g => .cons n (appendF f g)

mutual
/-- decompose() of every element with the given tag: each matching
element is removed from the tree together with its subtree. -/
def pruneTagN (tag : String) : HNode → HForest
  | .elem t cs => if t = tag then .nil else .cons (.elem t (pruneTagF tag cs)) .nil
def pruneTagF (tag : String) : HForest → HForest
  | .nil => .nil
  | .cons n ns => appendF (pruneTagN tag n) (pruneTagF tag ns)
end

mutual
/-- Number of elements with the given tag in a subtree (the length of
find_all(tag)). -/
def countTagN (tag : String) : HNode → Nat
  | .elem t cs => (if t = tag then 1 else 0) + countTagF tag cs
def countTagF (tag : String) : HForest → Nat
  | .nil => 0
  | .cons n ns => countTagN tag n + countTagF tag ns
end

/-- The image-removal step of the sanitizer (lines 257-259):
`if not extractImages and removeImages: for img in find_all('img'):
img.decompose()`. -/
def sanitizeImages (extractImages removeImages : Bool) (doc : HForest) : HForest :=
  if !extractImages && removeImages then pruneTagF "img" doc else doc

theorem countTagF_appendF (tag : String) (f g : HForest) :
    countTagF tag (appendF f g) = countTagF tag f + countTagF tag g := by
  cases f with
  | nil => simp [appendF, countTagF]
  | cons n ns =>
    have ih := countTagF_appendF tag ns g
    simp only [appendF, countTagF, ih]
    omega

mutual
theorem countTag_pruneN (tag : String) (n : HNode) :
    countTagF tag (pruneTagN tag n) = 0 := by
  cases n with
  | elem t cs =>
    by_cases h : t = tag
    · simp [pruneTagN, h, countTagF]
    · simp [pruneTagN, h, countTagF, countTagN, countTag_pruneF tag cs]
theorem countTag_pruneF (tag : String) (f : HForest) :
    countTagF tag (pruneTagF tag f) = 0 := by
  cases f with
  | nil => simp [pruneTagF, countTagF]
  | cons n ns =>
    simp [pruneTagF, countTagF_appendF, countTag_pruneN tag n, countTag_pruneF tag ns]
end

/-- C7: the sanitizer's image step removes all img elements exactly when
extractImages is false AND removeImages is true; with extractImages true
or removeImages false it leaves the document untouched. -/
theorem sanitizer_image_gate (extractImages removeImages : Bool) (doc : HForest) :
    (countTagF "img" (sanitizeImages extractImages removeImages doc)
        = if !extractImages && removeImages then 0 else countTagF "img" doc) ∧
    (extractImages = true → sanitizeImages extractImages removeImages doc = doc) ∧
    (removeImages = false → sanitizeImages extractImages removeImages doc = doc) := by
  refine ⟨?_, ?_, ?_⟩
  · by_cases h : (!extractImages && removeImages) = true
    · rw [if_pos h]
      unfold sanitizeImages
      rw [if_pos h]
      exact countTag_pruneF "img" doc
    · rw [if_neg h]
      unfold sanitizeImages
      rw [if_neg h]
  · intro h
    subst h
    rfl
  · intro h
    subst h
    unfold sanitizeImages
    simp

/-- Python split('\n'): break a character list at every newline, keeping
empty lines. -/
def splitLines : List Char → List (List Char)
  | [] => [[]]
  | c :: cs =>
    if c = '\n' then [] :: splitLines cs
    else
      match splitLines cs with
      | f :: fs => (c :: f) :: fs
      | [] => [[c]]

/-- '\n'.join over line lists. -/
def joinLines : List (List Char) → List Char
  | [] => []
  | [l] => l
  | l :: ls => l ++ '\n' :: joinLines ls

/-- One line's keep test (line 276), in the code's order:
`len(line.split()) >= word_threshold or line.startswith('#') or
line.strip() == ''`. -/
def keepLine (t : Nat) (line : List Char) : Bool :=
  decide (t ≤ countTokens false line) || ['#'].isPrefixOf line || decide (pyStripL line = [])

/-- The word-count filter (lines 271-278): applied only when the
threshold exceeds 1, line by line over a newline split, rejoined with
newlines; otherwise the markdown is returned untouched. -/
def contentFilter (md : String) (t : Nat) : String :=
  if 1 < t then String.mk (joinLines ((splitLines md.data).filter (keepLine t))) else md

/-- The spec's description of a kept line: blank, or starting with a
heading marker, or with word count at least the threshold. -/
def specKeep (t : Nat) (line : List Char) : Bool :=
  decide (pyStripL line = []) || ['#'].isPrefixOf line || decide (t ≤ countTokens false line)

theorem bool_or3_comm (a b c : Bool) : (a || b || c) = (c || b || a) := by
  cases a <;> cases b <;> cases c <;> rfl

/-- C8: the content filter is the identity for every threshold at most 1;
for a threshold above 1 it keeps exactly the lines that are blank, start
with a heading marker, or have word count at least the threshold, in
their original order. -/
theorem contentFilter_spec (md : String) (t : Nat) :
    (t ≤ 1 → contentFilter md t = md) ∧
    (1 < t → contentFilter md t =
      String.mk (joinLines ((splitLines md.data).filter (specKeep t)))) := by
  constructor
  · intro h
    unfold contentFilter
    rw [if_neg (by omega)]
  · intro h
    unfold contentFilter
    rw [if_pos h]
    have hpred : keepLine t = specKeep t := by
      funext line
      unfold keepLine specKeep
      exact bool_or3_comm _ _ _
    rw [hpred]

/-- C9: for every stored crawl result, characterCount equals the combined
markdown's length and wordCount equals the number of whitespace-delimited
tokens of the combined markdown (0 when it is empty or all whitespace). -/
theorem stored_counts_spec (md : String) :
    storedCharacterCount md = md.length ∧ jsWordCount md = specWordCount md :=
  ⟨rfl, jsWordCount_eq_specWordCount md⟩

theorem processing_failure_page_counts_witness :
    (initState "http://h/p").frontier = "http://h/p" :: [] ∧
    (initState "http://h/p").pages < cfgRefetch.maxPages ∧
    (initState "http://h/p").visited.contains "http://h/p" = false ∧
    envProcFail.fetch "http://h/p" =
      some { title := "T", links := [], md := "m", procFails := true } ∧
    crawlStep envProcFail cfgRefetch "h" (initState "http://h/p") = .next
      { visited := [] ++ ["http://h/p"], allContent := [],
        frontier := [], pages := 0 + 1, mainTitle := none,
        fetchLog := [] ++ ["http://h/p"] } :=
  ⟨rfl, by decide, rfl, rfl,
   processing_failure_page_counts envProcFail cfgRefetch "h" (initState "http://h/p")
     "http://h/p" [] { title := "T", links := [], md := "m", procFails := true }
     rfl (by decide) rfl rfl rfl⟩

end OF
